import Mathlib

/-!
# Verification of the swap-and-bridge transaction orchestrator

Shallow embedding of the repository's progress-tracked multi-step transaction
orchestrator (src/executeSwapAndBridge.ts) and of the cross-chain swap action
update hooks (the swap-bridge-swap entry script and src/utils/transactions.ts).

External collaborators (chain clients, wallet, bridge SDK watchers, the swap
aggregator HTTP API) are modelled as an oracle record of call results: each
awaited external call either returns a value or raises an error.  Addresses,
hashes, calldata bytes and JavaScript error objects are modelled as opaque
natural numbers.  The progress callback is modelled as a function from the
progress event to an optional raised error (none means it returned normally).

The run of the orchestrator is a pure function from the parameters and the
oracle to: the ordered list of progress events delivered to the callback, the
ordered list of external calls performed, and the final outcome (a returned
response or a raised error).
-/

set_option maxHeartbeats 1000000
set_option synthInstance.maxHeartbeats 200000

namespace AcrossKyberswap

/-- Errors raised by JavaScript code; opaque identifiers. -/
abbrev Err := Nat

/-- Transaction receipt, as used by the orchestrator (viem TransactionReceipt,
restricted to the fields the repository reads). -/
structure Receipt where
  transactionHash : Nat
  blockNumber : Nat
  status : Bool
  logs : List Nat
deriving DecidableEq

/-- enum TransferType from the periphery ABI.
Modelled from the spec: the file src/utils/peripheryAbi.ts is not part of the
provided sources; the spec describes transferType as an enum of a direct
transfer versus an approval-based pull. -/
inductive TransferType where
  | approval
  | transfer
deriving DecidableEq

/-- Submission fees of a swap-and-deposit submission.
Modelled from the spec: src/utils/peripheryAbi.ts is missing; the entry script
constructs submissionFees with an amount and a recipient. -/
structure SubmissionFees where
  amount : Nat
  recipient : Nat
deriving DecidableEq

/-- BaseDepositData, the bridge-specific deposit fields.
Modelled from the spec: src/utils/peripheryAbi.ts is missing; fields are taken
from the construction site in the swap-bridge-swap entry script. -/
structure BaseDepositData where
  inputToken : Nat
  outputToken : Nat
  outputAmount : Nat
  depositor : Nat
  recipient : Nat
  destinationChainId : Nat
  exclusiveRelayer : Nat
  quoteTimestamp : Nat
  fillDeadline : Nat
  exclusivityParameter : Nat
  message : Nat
deriving DecidableEq

/-- SwapAndDepositData, the immutable instruction set for one swap-and-bridge
submission.
Modelled from the spec: src/utils/peripheryAbi.ts is missing; fields are taken
from the spec data model and from their uses in src/executeSwapAndBridge.ts. -/
structure SwapAndDepositData where
  submissionFees : SubmissionFees
  depositData : BaseDepositData
  swapToken : Nat
  exchange : Nat
  transferType : TransferType
  swapTokenAmount : Nat
  minExpectedInputTokenAmount : Nat
  routerCalldata : Nat
  enableProportionalAdjustment : Bool
  spokePool : Nat
  nonce : Nat
deriving DecidableEq

/-- viem maxUint256: the maximum representable unsigned 256-bit integer. -/
def maxUint256 : Nat := 2 ^ 256 - 1

/-- ApproveMeta from src/executeSwapAndBridge.ts. -/
structure ApproveMeta where
  approvalAmount : Nat
  spender : Nat
deriving DecidableEq

/-- SwapAndBridgeMeta from src/executeSwapAndBridge.ts. -/
structure SwapAndBridgeMeta where
  swapAndDepositData : SwapAndDepositData
deriving DecidableEq

/-- FillMeta from src/executeSwapAndBridge.ts. -/
structure FillMeta where
  depositId : Nat
deriving DecidableEq

/-- ProgressMeta = ApproveMeta | SwapAndBridgeMeta | FillMeta | undefined. -/
inductive ProgressMeta where
  | undef
  | approve (m : ApproveMeta)
  | swapAndBridge (m : SwapAndBridgeMeta)
  | fill (m : FillMeta)
deriving DecidableEq

/-- The step discriminant of a progress event. -/
inductive Step where
  | approve
  | swapAndBridge
  | fill
deriving DecidableEq

/-- The status discriminant of a progress event. -/
inductive Status where
  | idle
  | txPending
  | txSuccess
  | pending
  | error
deriving DecidableEq

/-- SwapAndBridgeProgress: the tagged union of progress events from
src/executeSwapAndBridge.ts, one constructor per (step, status) variant.
depositLog and fillLog are the (optional) results of the SDK log parsers,
modelled opaquely. -/
inductive SwapAndBridgeProgress where
  | approveIdle
  | approveTxPending (txHash : Nat) (meta : ApproveMeta)
  | approveTxSuccess (txReceipt : Receipt) (meta : ApproveMeta)
  | swapAndBridgeTxPending (txHash : Nat) (meta : SwapAndBridgeMeta)
  | swapAndBridgeTxSuccess (txReceipt : Receipt) (depositId : Nat)
      (depositLog : Option Nat) (meta : SwapAndBridgeMeta)
  | fillPending (meta : FillMeta)
  | fillTxSuccess (txReceipt : Receipt) (fillTxTimestamp : Nat)
      (actionSuccess : Option Bool) (fillLog : Option Nat) (meta : FillMeta)
  | error (step : Step) (error : Err) (meta : ProgressMeta)
deriving DecidableEq

/-- The step field of a progress event. -/
def stepOf : SwapAndBridgeProgress → Step
  | .approveIdle => .approve
  | .approveTxPending _ _ => .approve
  | .approveTxSuccess _ _ => .approve
  | .swapAndBridgeTxPending _ _ => .swapAndBridge
  | .swapAndBridgeTxSuccess _ _ _ _ => .swapAndBridge
  | .fillPending _ => .fill
  | .fillTxSuccess _ _ _ _ _ => .fill
  | .error st _ _ => st

/-- The status field of a progress event. -/
def statusOf : SwapAndBridgeProgress → Status
  | .approveIdle => .idle
  | .approveTxPending _ _ => .txPending
  | .approveTxSuccess _ _ => .txSuccess
  | .swapAndBridgeTxPending _ _ => .txPending
  | .swapAndBridgeTxSuccess _ _ _ _ => .txSuccess
  | .fillPending _ => .pending
  | .fillTxSuccess _ _ _ _ _ => .txSuccess
  | .error _ _ _ => .error

/-- Calldata produced by encodeFunctionData, modelled symbolically by the
function being encoded together with its arguments. -/
inductive Calldata where
  | approve (spender : Nat) (value : Nat)
  | swapAndBridge (args : SwapAndDepositData)
deriving DecidableEq

/-- The external calls the orchestrator performs, in the order it performs
them, with the arguments it passes. -/
inductive ExtCall where
  | readContractAllowance (token owner spender : Nat)
  | sendTransaction (toAddress : Nat) (data : Calldata) (value : Option Nat)
  | simulateContract (address account : Nat) (args : SwapAndDepositData)
      (value : Option Nat)
  | waitForTransactionReceipt (hash : Nat)
  | waitForDepositTx (originChainId : Nat) (transactionHash : Nat)
  | getBlockNumber
  | waitForFillTx (depositId : Nat) (depositTxHash : Nat) (fromBlock : Int)
deriving DecidableEq

/-- The oracle of external-call results: each awaited call either returns a
value (ok) or raises (error).  The SDK log parsers are pure functions from the
receipt logs to an optional parsed log. -/
structure Env where
  allowance : Except Err Nat
  approveTxHash : Except Err Nat
  approveTxReceipt : Except Err Receipt
  simulateResult : Except Err Unit
  swapAndBridgeTxHash : Except Err Nat
  depositTxResult : Except Err (Nat × Receipt)
  parseDepositLogs : List Nat → Option Nat
  blockNumber : Except Err Nat
  fillTxResult : Except Err (Receipt × Nat × Option Bool)
  parseFillLogs : List Nat → Option Nat

/-- ExecuteSwapAndBridgeParams, restricted to the fields the orchestrator
reads.  The chain clients are represented by the oracle; the chains are
represented by their ids.  The progress callback returns some e when it
throws e and none when it returns normally. -/
structure Params where
  originChainId : Nat
  destinationChainId : Nat
  userAddress : Nat
  swapAndDepositData : SwapAndDepositData
  spokePoolPeripheryAddress : Nat
  destinationSpokePoolAddress : Nat
  isNative : Bool := false
  infiniteApproval : Bool := false
  skipAllowanceCheck : Bool := false
  throwOnError : Bool := true
  onProgress : Option (SwapAndBridgeProgress → Option Err) := none

/-- ExecuteSwapAndBridgeResponse from src/executeSwapAndBridge.ts: four
optional fields, absent by default. -/
structure Response where
  depositId : Option Nat := none
  swapAndBridgeTxReceipt : Option Receipt := none
  fillTxReceipt : Option Receipt := none
  error : Option Err := none
deriving DecidableEq

/-- The final control outcome of a run: a returned response or a raised
error. -/
inductive Outcome where
  | returned (r : Response)
  | thrown (e : Err)
deriving DecidableEq

instance {ε α : Type} [DecidableEq ε] [DecidableEq α] :
    DecidableEq (Except ε α) := fun x y =>
  match x, y with
  | .ok a, .ok b =>
    if h : a = b then isTrue (by rw [h]) else isFalse (by simp [h])
  | .error a, .error b =>
    if h : a = b then isTrue (by rw [h]) else isFalse (by simp [h])
  | .ok _, .error _ => isFalse (by simp)
  | .error _, .ok _ => isFalse (by simp)

/-- Result of the try block: delivered events, performed external calls, and
either the response or the raised error together with the step of the current
progress and the current progress meta at the time it was raised (the data the
catch block reads from its mutable state). -/
structure TryOut where
  events : List SwapAndBridgeProgress
  calls : List ExtCall
  result : Except (Err × Step × ProgressMeta) Response
deriving DecidableEq

/-- The complete observable behaviour of one run. -/
structure RunResult where
  events : List SwapAndBridgeProgress
  calls : List ExtCall
  outcome : Outcome
deriving DecidableEq

/-- The effective progress handler: the caller's onProgress, or the default
console-logging handler, which never throws. -/
def cbOf (p : Params) : SwapAndBridgeProgress → Option Err :=
  p.onProgress.getD (fun _ => none)

/-- Phase 2 and phase 3 of the try block of executeSwapAndBridge: encode the
swapAndBridge call, simulate it, send it, wait for the deposit, then wait for
the fill on the destination chain.  entry is the value of the mutable
currentProgress variable on entry (the catch block reads its step field when a
later call raises). -/
def phase2 (p : Params) (env : Env) (cb : SwapAndBridgeProgress → Option Err)
    (entry : SwapAndBridgeProgress) : TryOut :=
  let d := p.swapAndDepositData
  let meta : ProgressMeta := .swapAndBridge ⟨d⟩
  let value : Option Nat := if p.isNative then some d.swapTokenAmount else none
  let simCall := ExtCall.simulateContract p.spokePoolPeripheryAddress
    p.userAddress d value
  match env.simulateResult with
  | .error e => ⟨[], [simCall], .error (e, stepOf entry, meta)⟩
  | .ok _ =>
    let sendCall := ExtCall.sendTransaction p.spokePoolPeripheryAddress
      (.swapAndBridge d) value
    match env.swapAndBridgeTxHash with
    | .error e => ⟨[], [simCall, sendCall], .error (e, stepOf entry, meta)⟩
    | .ok swapAndBridgeTxHash =>
      let ev1 := SwapAndBridgeProgress.swapAndBridgeTxPending
        swapAndBridgeTxHash ⟨d⟩
      match cb ev1 with
      | some e => ⟨[ev1], [simCall, sendCall], .error (e, stepOf ev1, meta)⟩
      | none =>
        let waitCall := ExtCall.waitForDepositTx p.originChainId
          swapAndBridgeTxHash
        match env.depositTxResult with
        | .error e =>
          ⟨[ev1], [simCall, sendCall, waitCall], .error (e, stepOf ev1, meta)⟩
        | .ok (depositId, depositTxReceipt) =>
          let depositLog := env.parseDepositLogs depositTxReceipt.logs
          let ev2 := SwapAndBridgeProgress.swapAndBridgeTxSuccess
            depositTxReceipt depositId depositLog ⟨d⟩
          match cb ev2 with
          | some e =>
            ⟨[ev1, ev2], [simCall, sendCall, waitCall],
              .error (e, stepOf ev2, meta)⟩
          | none =>
            let meta2 : ProgressMeta := .fill ⟨depositId⟩
            let ev3 := SwapAndBridgeProgress.fillPending ⟨depositId⟩
            match cb ev3 with
            | some e =>
              ⟨[ev1, ev2, ev3], [simCall, sendCall, waitCall],
                .error (e, stepOf ev3, meta2)⟩
            | none =>
              match env.blockNumber with
              | .error e =>
                ⟨[ev1, ev2, ev3],
                  [simCall, sendCall, waitCall, .getBlockNumber],
                  .error (e, stepOf ev3, meta2)⟩
              | .ok destinationBlock =>
                let fillCall := ExtCall.waitForFillTx depositId
                  depositTxReceipt.transactionHash
                  ((destinationBlock : Int) - 100)
                match env.fillTxResult with
                | .error e =>
                  ⟨[ev1, ev2, ev3],
                    [simCall, sendCall, waitCall, .getBlockNumber, fillCall],
                    .error (e, stepOf ev3, meta2)⟩
                | .ok (fillTxReceipt, fillTxTimestamp, actionSuccess) =>
                  let fillLog := env.parseFillLogs fillTxReceipt.logs
                  let ev4 := SwapAndBridgeProgress.fillTxSuccess fillTxReceipt
                    fillTxTimestamp actionSuccess fillLog ⟨depositId⟩
                  match cb ev4 with
                  | some e =>
                    ⟨[ev1, ev2, ev3, ev4],
                      [simCall, sendCall, waitCall, .getBlockNumber, fillCall],
                      .error (e, stepOf ev4, meta2)⟩
                  | none =>
                    ⟨[ev1, ev2, ev3, ev4],
                      [simCall, sendCall, waitCall, .getBlockNumber, fillCall],
                      .ok ⟨some depositId, some depositTxReceipt,
                        some fillTxReceipt, none⟩⟩

/-- Phase 1 (the conditional approval) of the try block of
executeSwapAndBridge, continuing into phase2.  The mutable currentProgress
variable starts as the approve idle variant. -/
def phase1 (p : Params) (env : Env)
    (cb : SwapAndBridgeProgress → Option Err) : TryOut :=
  let d := p.swapAndDepositData
  let cur0 := SwapAndBridgeProgress.approveIdle
  if !p.skipAllowanceCheck && !p.isNative then
    let readCall := ExtCall.readContractAllowance d.swapToken p.userAddress
      p.spokePoolPeripheryAddress
    match env.allowance with
    | .error e => ⟨[], [readCall], .error (e, stepOf cur0, .undef)⟩
    | .ok allowance =>
      if d.swapTokenAmount > allowance then
        let approvalAmount :=
          if p.infiniteApproval then maxUint256 else d.swapTokenAmount
        let meta : ApproveMeta := ⟨approvalAmount, p.spokePoolPeripheryAddress⟩
        let sendCall := ExtCall.sendTransaction d.swapToken
          (.approve p.spokePoolPeripheryAddress approvalAmount) none
        match env.approveTxHash with
        | .error e =>
          ⟨[], [readCall, sendCall], .error (e, stepOf cur0, .approve meta)⟩
        | .ok approveTxHash =>
          let ev1 := SwapAndBridgeProgress.approveTxPending approveTxHash meta
          match cb ev1 with
          | some e =>
            ⟨[ev1], [readCall, sendCall], .error (e, stepOf ev1, .approve meta)⟩
          | none =>
            let waitCall := ExtCall.waitForTransactionReceipt approveTxHash
            match env.approveTxReceipt with
            | .error e =>
              ⟨[ev1], [readCall, sendCall, waitCall],
                .error (e, stepOf ev1, .approve meta)⟩
            | .ok approveTxReceipt =>
              let ev2 := SwapAndBridgeProgress.approveTxSuccess
                approveTxReceipt meta
              match cb ev2 with
              | some e =>
                ⟨[ev1, ev2], [readCall, sendCall, waitCall],
                  .error (e, stepOf ev2, .approve meta)⟩
              | none =>
                let t := phase2 p env cb ev2
                ⟨[ev1, ev2] ++ t.events, [readCall, sendCall, waitCall] ++
                  t.calls, t.result⟩
      else
        let t := phase2 p env cb cur0
        ⟨t.events, readCall :: t.calls, t.result⟩
  else
    let t := phase2 p env cb cur0
    ⟨t.events, t.calls, t.result⟩

/-- executeSwapAndBridge from src/executeSwapAndBridge.ts: runs the try block
(phase1 into phase2) and models the single catch block: it builds the error
event from the current progress and meta, delivers it to the handler (a throw
from the handler here propagates), then returns the error in the response when
throwOnError is false and re-raises it otherwise. -/
def executeSwapAndBridge (p : Params) (env : Env) : RunResult :=
  let cb := cbOf p
  let t := phase1 p env cb
  match t.result with
  | .ok resp => ⟨t.events, t.calls, .returned resp⟩
  | .error (e, st, meta) =>
    let errEv := SwapAndBridgeProgress.error st e meta
    match cb errEv with
    | some e2 => ⟨t.events ++ [errEv], t.calls, .thrown e2⟩
    | none =>
      if !p.throwOnError then
        ⟨t.events ++ [errEv], t.calls,
          .returned { error := some e }⟩
      else
        ⟨t.events ++ [errEv], t.calls, .thrown e⟩

/-- Projection of an event list to the (step, status) discriminants. -/
def pTrace (l : List SwapAndBridgeProgress) : List (Step × Status) :=
  l.map (fun ev => (stepOf ev, statusOf ev))

/-- The step recorded in an error result of the try block, if any. -/
def resultErrStep : Except (Err × Step × ProgressMeta) Response → Option Step
  | .error (_, st, _) => some st
  | .ok _ => none

def pA1 : Step × Status := (Step.approve, Status.txPending)

def pA2 : Step × Status := (Step.approve, Status.txSuccess)

def pS1 : Step × Status := (Step.swapAndBridge, Status.txPending)

def pS2 : Step × Status := (Step.swapAndBridge, Status.txSuccess)

def pF1 : Step × Status := (Step.fill, Status.pending)

def pF2 : Step × Status := (Step.fill, Status.txSuccess)

/-- The possible projected event traces of phase2 together with the step a
failing result records. -/
def phase2Shapes : List (List (Step × Status) × Option Step) :=
  [ ([pS1, pS2, pF1, pF2], none),
    ([], some Step.approve),
    ([pS1], some Step.swapAndBridge),
    ([pS1, pS2], some Step.swapAndBridge),
    ([pS1, pS2, pF1], some Step.fill),
    ([pS1, pS2, pF1, pF2], some Step.fill) ]

/-- The possible projected event traces of the whole try block together with
the step a failing result records. -/
def phase1Shapes : List (List (Step × Status) × Option Step) :=
  phase2Shapes ++
  [ ([pA1], some Step.approve), ([pA1, pA2], some Step.approve) ] ++
  phase2Shapes.map (fun x => (pA1 :: pA2 :: x.1, x.2))

lemma phase2_shape (p : Params) (env : Env)
    (cb : SwapAndBridgeProgress → Option Err) (entry : SwapAndBridgeProgress)
    (h : stepOf entry = Step.approve) :
    (pTrace (phase2 p env cb entry).events,
      resultErrStep (phase2 p env cb entry).result) ∈ phase2Shapes := by
  simp only [phase2]
  repeat' split
  all_goals
    simp_all [pTrace, resultErrStep, phase2Shapes, stepOf, statusOf,
      pS1, pS2, pF1, pF2]

lemma phase1_shape (p : Params) (env : Env)
    (cb : SwapAndBridgeProgress → Option Err) :
    (pTrace (phase1 p env cb).events,
      resultErrStep (phase1 p env cb).result) ∈ phase1Shapes := by
  have hsub : ∀ x ∈ phase2Shapes, x ∈ phase1Shapes := by decide
  have hlift0 : ∀ x ∈ phase2Shapes,
      (pA1 :: pA2 :: x.1, x.2) ∈ phase1Shapes := by decide
  have hlift : ∀ a b, (a, b) ∈ phase2Shapes →
      (pA1 :: pA2 :: a, b) ∈ phase1Shapes := fun a b hab => hlift0 (a, b) hab
  simp only [phase1]
  repeat' split
  all_goals
    first
    | exact hsub _ (phase2_shape p env cb SwapAndBridgeProgress.approveIdle
        rfl)
    | (simp only [pTrace, List.map_append, List.map_cons, List.map_nil,
         stepOf, statusOf]
       exact hlift _ _ (phase2_shape p env cb _ rfl))
    | simp_all [pTrace, resultErrStep, phase1Shapes, phase2Shapes, stepOf,
        statusOf, pA1, pA2]

def pEA : Step × Status := (Step.approve, Status.error)

def pES : Step × Status := (Step.swapAndBridge, Status.error)

def pEF : Step × Status := (Step.fill, Status.error)

/-- Every projected event trace a run of executeSwapAndBridge can deliver. -/
def allowedTraces : List (List (Step × Status)) :=
  [ [pS1, pS2, pF1, pF2],
    [pA1, pA2, pS1, pS2, pF1, pF2],
    [pEA],
    [pA1, pEA],
    [pA1, pA2, pEA],
    [pS1, pES],
    [pS1, pS2, pES],
    [pS1, pS2, pF1, pEF],
    [pS1, pS2, pF1, pF2, pEF],
    [pA1, pA2, pS1, pES],
    [pA1, pA2, pS1, pS2, pES],
    [pA1, pA2, pS1, pS2, pF1, pEF],
    [pA1, pA2, pS1, pS2, pF1, pF2, pEF] ]

lemma exec_trace_mem (p : Params) (env : Env) :
    pTrace (executeSwapAndBridge p env).events ∈ allowedTraces := by
  have h1 := phase1_shape p env (cbOf p)
  have hok : ∀ x ∈ phase1Shapes, x.2 = none → x.1 ∈ allowedTraces := by
    decide
  have herr0 : ∀ x ∈ phase1Shapes, ∀ st, x.2 = some st →
      x.1 ++ [(st, Status.error)] ∈ allowedTraces := by decide
  simp only [executeSwapAndBridge]
  cases hres : (phase1 p env (cbOf p)).result with
  | ok resp =>
    simp only [hres]
    exact hok _ h1 (by rw [hres]; rfl)
  | error est =>
    obtain ⟨e, st, m⟩ := est
    simp only [hres]
    have hst : resultErrStep (phase1 p env (cbOf p)).result = some st := by
      rw [hres]; rfl
    have hmem := herr0 _ h1 st hst
    cases hcb : cbOf p (SwapAndBridgeProgress.error st e m) with
    | some e2 =>
      simpa [pTrace, stepOf, statusOf] using hmem
    | none =>
      by_cases hth : p.throwOnError = true <;>
        simp [hth, pTrace, stepOf, statusOf] <;>
        simpa [pTrace, stepOf, statusOf] using hmem

/-- Step index for the non-decreasing step order approve, swapAndBridge,
fill. -/
def stepIdx : Step → Nat
  | .approve => 0
  | .swapAndBridge => 1
  | .fill => 2

/-- Rank of a (step, status) pair in the normal progress order. -/
def rank : Step × Status → Nat
  | (Step.approve, Status.idle) => 0
  | (Step.approve, Status.txPending) => 1
  | (Step.approve, Status.txSuccess) => 2
  | (Step.swapAndBridge, Status.txPending) => 3
  | (Step.swapAndBridge, Status.txSuccess) => 4
  | (Step.fill, Status.pending) => 5
  | (Step.fill, Status.txSuccess) => 6
  | _ => 7

/-- A projected trace is well ordered when no event other than the last has
status error, consecutive non-error events strictly increase in rank (so
steps are non-decreasing, each step's txPending precedes its txSuccess, and
fill's pending precedes its txSuccess), and an error event, when present,
carries a step at least that of the event before it. -/
def traceOk : List (Step × Status) → Bool
  | [] => true
  | [_] => true
  | a :: b :: rest =>
    (a.2 != Status.error) &&
    (if b.2 == Status.error then Nat.ble (stepIdx a.1) (stepIdx b.1)
     else Nat.blt (rank a) (rank b)) &&
    traceOk (b :: rest)

/-- C1: for every run of executeSwapAndBridge, the progress events delivered
to the callback are in non-decreasing step order (approve before
swapAndBridge before fill, each step's txPending before its txSuccess, and
fill's pending before its txSuccess), and once an event with status error is
delivered no further events are delivered for that run. -/
theorem progress_event_order (p : Params) (env : Env) :
    traceOk (pTrace (executeSwapAndBridge p env).events) = true := by
  have h := exec_trace_mem p env
  have hall : ∀ l ∈ allowedTraces, traceOk l = true := by decide
  exact hall _ h

lemma exec_calls (p : Params) (env : Env) :
    (executeSwapAndBridge p env).calls = (phase1 p env (cbOf p)).calls := by
  simp only [executeSwapAndBridge]
  cases hres : (phase1 p env (cbOf p)).result with
  | ok resp => simp [hres]
  | error est =>
    obtain ⟨e, st, m⟩ := est
    simp only [hres]
    cases hcb : cbOf p (SwapAndBridgeProgress.error st e m) with
    | some e2 => simp
    | none => by_cases hth : p.throwOnError = true <;> simp [hth]

lemma exec_events (p : Params) (env : Env) :
    (∃ resp, (phase1 p env (cbOf p)).result = Except.ok resp
      ∧ (executeSwapAndBridge p env).events = (phase1 p env (cbOf p)).events)
    ∨ ∃ e st m, (phase1 p env (cbOf p)).result = Except.error (e, st, m)
      ∧ (executeSwapAndBridge p env).events
        = (phase1 p env (cbOf p)).events
          ++ [SwapAndBridgeProgress.error st e m] := by
  simp only [executeSwapAndBridge]
  cases hres : (phase1 p env (cbOf p)).result with
  | ok resp => left; exact ⟨resp, rfl, by simp [hres]⟩
  | error est =>
    obtain ⟨e, st, m⟩ := est
    right
    refine ⟨e, st, m, rfl, ?_⟩
    simp only [hres]
    cases hcb : cbOf p (SwapAndBridgeProgress.error st e m) with
    | some e2 => simp
    | none => by_cases hth : p.throwOnError = true <;> simp [hth]

lemma phase1_skipped (p : Params) (env : Env)
    (cb : SwapAndBridgeProgress → Option Err)
    (hcond : (!p.skipAllowanceCheck && !p.isNative) = false) :
    phase1 p env cb = phase2 p env cb SwapAndBridgeProgress.approveIdle := by
  simp [phase1, hcond]

lemma phase1_sufficient (p : Params) (env : Env)
    (cb : SwapAndBridgeProgress → Option Err) (a : Nat)
    (hskip : p.skipAllowanceCheck = false) (hnat : p.isNative = false)
    (ha : env.allowance = Except.ok a)
    (hle : p.swapAndDepositData.swapTokenAmount ≤ a) :
    phase1 p env cb =
      ⟨(phase2 p env cb SwapAndBridgeProgress.approveIdle).events,
        ExtCall.readContractAllowance p.swapAndDepositData.swapToken
          p.userAddress p.spokePoolPeripheryAddress
          :: (phase2 p env cb SwapAndBridgeProgress.approveIdle).calls,
        (phase2 p env cb SwapAndBridgeProgress.approveIdle).result⟩ := by
  have hgt : ¬ (a < p.swapAndDepositData.swapTokenAmount) := Nat.not_lt.mpr hle
  simp [phase1, hskip, hnat, ha, hgt]

/-- In phase2 no allowance is read, no approve calldata is sent, and no
approval receipt is awaited. -/
lemma phase2_calls_no_approve (p : Params) (env : Env)
    (cb : SwapAndBridgeProgress → Option Err)
    (entry : SwapAndBridgeProgress) :
    (phase2 p env cb entry).calls.all (fun c =>
      match c with
      | ExtCall.readContractAllowance _ _ _ => false
      | ExtCall.sendTransaction _ (Calldata.approve _ _) _ => false
      | ExtCall.waitForTransactionReceipt _ => false
      | _ => true) = true := by
  simp only [phase2]
  repeat' split
  all_goals simp

/-- Every event phase2 itself delivers is a swapAndBridge or fill event. -/
lemma phase2_events_no_approve (p : Params) (env : Env)
    (cb : SwapAndBridgeProgress → Option Err)
    (entry : SwapAndBridgeProgress) :
    (phase2 p env cb entry).events.all
      (fun ev => stepOf ev != Step.approve) = true := by
  simp only [phase2]
  repeat' split
  all_goals simp [stepOf]

/-- C4: for every run where isNative or skipAllowanceCheck is set, no
allowance read is performed, no approval transaction is submitted, and no
progress event with step approve and status txPending or txSuccess is
delivered. -/
theorem native_or_skip_no_approve (p : Params) (env : Env)
    (h : p.isNative = true ∨ p.skipAllowanceCheck = true) :
    ((executeSwapAndBridge p env).calls.all (fun c =>
        match c with
        | ExtCall.readContractAllowance _ _ _ => false
        | ExtCall.sendTransaction _ (Calldata.approve _ _) _ => false
        | _ => true) = true)
    ∧ ((executeSwapAndBridge p env).events.all (fun ev =>
        !(stepOf ev == Step.approve &&
          (statusOf ev == Status.txPending
            || statusOf ev == Status.txSuccess))) = true) := by
  have hcond : (!p.skipAllowanceCheck && !p.isNative) = false := by
    rcases h with h1 | h1 <;> simp [h1]
  have hp1 := phase1_skipped p env (cbOf p) hcond
  constructor
  · rw [exec_calls, hp1]
    have h2 := phase2_calls_no_approve p env (cbOf p)
      SwapAndBridgeProgress.approveIdle
    revert h2
    simp only [List.all_eq_true]
    intro h2 c hc
    have h3 := h2 c hc
    revert h3
    cases c with
    | sendTransaction toAddress data value => cases data <;> simp
    | _ => simp
  · have hev := exec_events p env
    have h2 := phase2_events_no_approve p env (cbOf p)
      SwapAndBridgeProgress.approveIdle
    have hstep : ∀ ev ∈ (phase1 p env (cbOf p)).events,
        (!(stepOf ev == Step.approve &&
          (statusOf ev == Status.txPending
            || statusOf ev == Status.txSuccess))) = true := by
      rw [hp1]
      rw [List.all_eq_true] at h2
      intro ev hevm
      have := h2 ev hevm
      simp only [bne_iff_ne, ne_eq] at this
      simp [this]
    rcases hev with ⟨resp, hres0, heq⟩ | ⟨e, st, m, hres, heq⟩
    · rw [heq, List.all_eq_true]
      exact hstep
    · rw [heq, List.all_eq_true]
      intro ev hevm
      rcases List.mem_append.mp hevm with hl | hr
      · exact hstep ev hl
      · have : ev = SwapAndBridgeProgress.error st e m := by
          simpa using hr
        subst this
        simp [statusOf]

/-- Concrete swap-and-deposit data used by the concrete runs below. -/
def dataC : SwapAndDepositData :=
  { submissionFees := ⟨0, 0⟩,
    depositData := ⟨1, 2, 3, 4, 5, 42161, 6, 7, 8, 9, 10⟩,
    swapToken := 21, exchange := 22, transferType := TransferType.approval,
    swapTokenAmount := 5000000, minExpectedInputTokenAmount := 100,
    routerCalldata := 33, enableProportionalAdjustment := true,
    spokePool := 44, nonce := 1 }

def receiptC : Receipt := ⟨101, 500, true, [7]⟩

def fillReceiptC : Receipt := ⟨202, 900, true, [8]⟩

/-- An oracle on which every external call succeeds. -/
def envOk : Env :=
  { allowance := Except.ok 0,
    approveTxHash := Except.ok 111,
    approveTxReceipt := Except.ok receiptC,
    simulateResult := Except.ok (),
    swapAndBridgeTxHash := Except.ok 112,
    depositTxResult := Except.ok (42, receiptC),
    parseDepositLogs := fun _ => some 77,
    blockNumber := Except.ok 1000,
    fillTxResult := Except.ok (fillReceiptC, 1234, some true),
    parseFillLogs := fun _ => some 88 }

/-- Concrete parameters with the default options (approval path is taken on
envOk since the allowance 0 is below the swap amount). -/
def paramsC : Params :=
  { originChainId := 8453, destinationChainId := 42161,
    userAddress := 900, swapAndDepositData := dataC,
    spokePoolPeripheryAddress := 901, destinationSpokePoolAddress := 902 }

/-- C10: no event with status idle is ever delivered to the progress
callback; the first observable event is approve txPending, swapAndBridge
txPending, or an error event. -/
theorem no_idle_event_delivered (p : Params) (env : Env) :
    ((executeSwapAndBridge p env).events.all
        (fun ev => statusOf ev != Status.idle) = true)
    ∧ (∀ ev, (executeSwapAndBridge p env).events.head? = some ev →
        (stepOf ev, statusOf ev) = pA1 ∨ (stepOf ev, statusOf ev) = pS1
        ∨ statusOf ev = Status.error) := by
  have h := exec_trace_mem p env
  constructor
  · have hall : ∀ l ∈ allowedTraces,
        (l.all (fun x => x.2 != Status.idle)) = true := by decide
    have h2 := hall _ h
    rw [List.all_eq_true] at h2
    rw [List.all_eq_true]
    intro ev hev
    exact h2 _ (List.mem_map_of_mem _ hev)
  · intro ev hev
    have hhd : ∀ l ∈ allowedTraces, ∀ x, l.head? = some x →
        (x = pA1 ∨ x = pS1 ∨ x.2 = Status.error) := by decide
    have hx : (pTrace (executeSwapAndBridge p env).events).head?
        = some (stepOf ev, statusOf ev) := by
      rw [pTrace, List.head?_map, hev]; rfl
    exact hhd _ h _ hx

/-- Witness for C10 at a concrete run whose first event is the swapAndBridge
txPending event. -/
theorem no_idle_event_delivered_witness :
    (stepOf (SwapAndBridgeProgress.swapAndBridgeTxPending 112 ⟨dataC⟩),
      statusOf (SwapAndBridgeProgress.swapAndBridgeTxPending 112 ⟨dataC⟩))
        = pA1
    ∨ (stepOf (SwapAndBridgeProgress.swapAndBridgeTxPending 112 ⟨dataC⟩),
      statusOf (SwapAndBridgeProgress.swapAndBridgeTxPending 112 ⟨dataC⟩))
        = pS1
    ∨ statusOf (SwapAndBridgeProgress.swapAndBridgeTxPending 112 ⟨dataC⟩)
        = Status.error :=
  (no_idle_event_delivered { paramsC with skipAllowanceCheck := true }
    envOk).2 _ (by decide)

/-- Witness for C4 at a concrete run with skipAllowanceCheck set. -/
theorem native_or_skip_no_approve_witness :
    ((executeSwapAndBridge { paramsC with skipAllowanceCheck := true }
        envOk).calls.all (fun c =>
        match c with
        | ExtCall.readContractAllowance _ _ _ => false
        | ExtCall.sendTransaction _ (Calldata.approve _ _) _ => false
        | _ => true) = true)
    ∧ ((executeSwapAndBridge { paramsC with skipAllowanceCheck := true }
        envOk).events.all (fun ev =>
        !(stepOf ev == Step.approve &&
          (statusOf ev == Status.txPending
            || statusOf ev == Status.txSuccess))) = true) :=
  native_or_skip_no_approve _ envOk (Or.inr rfl)

/-- Phase2 always performs the simulation as its first external call. -/
lemma phase2_calls_cons (p : Params) (env : Env)
    (cb : SwapAndBridgeProgress → Option Err)
    (entry : SwapAndBridgeProgress) :
    ∃ rest, (phase2 p env cb entry).calls
      = ExtCall.simulateContract p.spokePoolPeripheryAddress p.userAddress
          p.swapAndDepositData
          (if p.isNative then some p.swapAndDepositData.swapTokenAmount
           else none) :: rest := by
  simp only [phase2]
  repeat' split
  all_goals exact ⟨_, rfl⟩

/-- If no event of the try block has step approve, then the delivered events
of the whole run contain no approve event with status txPending or
txSuccess (the appended error event has status error). -/
lemma no_approve_status_events (p : Params) (env : Env)
    (hsteps : (phase1 p env (cbOf p)).events.all
      (fun ev => stepOf ev != Step.approve) = true) :
    (executeSwapAndBridge p env).events.all (fun ev =>
        !(stepOf ev == Step.approve &&
          (statusOf ev == Status.txPending
            || statusOf ev == Status.txSuccess))) = true := by
  have hstep : ∀ ev ∈ (phase1 p env (cbOf p)).events,
      (!(stepOf ev == Step.approve &&
        (statusOf ev == Status.txPending
          || statusOf ev == Status.txSuccess))) = true := by
    rw [List.all_eq_true] at hsteps
    intro ev hevm
    have h3 := hsteps ev hevm
    simp only [bne_iff_ne, ne_eq] at h3
    simp [h3]
  rcases exec_events p env with ⟨resp, hres0, heq⟩ | ⟨e, st, m, hres, heq⟩
  · rw [heq, List.all_eq_true]
    exact hstep
  · rw [heq, List.all_eq_true]
    intro ev hevm
    rcases List.mem_append.mp hevm with hl | hr
    · exact hstep ev hl
    · have hev2 : ev = SwapAndBridgeProgress.error st e m := by simpa using hr
      subst hev2
      simp [statusOf]

/-- C5 (amended): for every run where the approval phase is not skipped and
the allowance read from the chain covers swapTokenAmount, no approval
transaction is submitted, no progress event with step approve and status
txPending or txSuccess is delivered (an error event may still carry step
approve), and the run proceeds directly to the swapAndBridge phase (the
simulateContract call is performed). -/
theorem sufficient_allowance_no_approval (p : Params) (env : Env) (a : Nat)
    (hskip : p.skipAllowanceCheck = false) (hnat : p.isNative = false)
    (ha : env.allowance = Except.ok a)
    (hle : p.swapAndDepositData.swapTokenAmount ≤ a) :
    ((executeSwapAndBridge p env).calls.all (fun c =>
        match c with
        | ExtCall.sendTransaction _ (Calldata.approve _ _) _ => false
        | _ => true) = true)
    ∧ ((executeSwapAndBridge p env).events.all (fun ev =>
        !(stepOf ev == Step.approve &&
          (statusOf ev == Status.txPending
            || statusOf ev == Status.txSuccess))) = true)
    ∧ ExtCall.simulateContract p.spokePoolPeripheryAddress p.userAddress
        p.swapAndDepositData none ∈ (executeSwapAndBridge p env).calls := by
  have hp1 := phase1_sufficient p env (cbOf p) a hskip hnat ha hle
  refine ⟨?_, ?_, ?_⟩
  · rw [exec_calls, hp1]
    have h2 := phase2_calls_no_approve p env (cbOf p)
      SwapAndBridgeProgress.approveIdle
    rw [List.all_eq_true] at h2
    rw [List.all_eq_true]
    intro c hc
    rcases List.mem_cons.mp hc with hceq | hcm
    · subst hceq; rfl
    · have h3 := h2 c hcm
      revert h3
      cases c with
      | sendTransaction toAddress data value => cases data <;> simp
      | _ => simp
  · apply no_approve_status_events
    rw [hp1]
    exact phase2_events_no_approve p env (cbOf p)
      SwapAndBridgeProgress.approveIdle
  · rw [exec_calls, hp1]
    obtain ⟨rest, hrest⟩ := phase2_calls_cons p env (cbOf p)
      SwapAndBridgeProgress.approveIdle
    rw [hnat] at hrest
    rw [hrest]
    simp

/-- An oracle on which the allowance covers the swap amount and the
swapAndBridge sendTransaction raises. -/
def envC5 : Env := { envOk with
  allowance := Except.ok 5000000
  swapAndBridgeTxHash := Except.error 3 }

/-- Counterexample to C5 as stated: with the approval phase not skipped and
the allowance (5000000) covering swapTokenAmount (5000000), a later failure
still delivers a progress event whose step field is approve (the error
event), so the run does not avoid approve-step events altogether. -/
theorem sufficient_allowance_error_event_counterexample :
    paramsC.skipAllowanceCheck = false ∧ paramsC.isNative = false
    ∧ envC5.allowance = Except.ok 5000000
    ∧ paramsC.swapAndDepositData.swapTokenAmount ≤ 5000000
    ∧ (executeSwapAndBridge paramsC envC5).events
        = [SwapAndBridgeProgress.error Step.approve 3
            (ProgressMeta.swapAndBridge ⟨dataC⟩)]
    ∧ (executeSwapAndBridge paramsC envC5).events.any
        (fun ev => stepOf ev == Step.approve) = true := by decide

/-- Witness for the amended C5 at the concrete run on envC5. -/
theorem sufficient_allowance_no_approval_witness :
    ((executeSwapAndBridge paramsC envC5).calls.all (fun c =>
        match c with
        | ExtCall.sendTransaction _ (Calldata.approve _ _) _ => false
        | _ => true) = true)
    ∧ ((executeSwapAndBridge paramsC envC5).events.all (fun ev =>
        !(stepOf ev == Step.approve &&
          (statusOf ev == Status.txPending
            || statusOf ev == Status.txSuccess))) = true)
    ∧ ExtCall.simulateContract paramsC.spokePoolPeripheryAddress
        paramsC.userAddress paramsC.swapAndDepositData none
        ∈ (executeSwapAndBridge paramsC envC5).calls :=
  sufficient_allowance_no_approval paramsC envC5 5000000 rfl rfl (by decide)
    (by decide)

/-- When simulation raises, phase2 performs only the simulateContract call,
delivers no event, and fails with the swapAndBridge meta and the step of the
entry progress. -/
lemma phase2_sim_error (p : Params) (env : Env)
    (cb : SwapAndBridgeProgress → Option Err)
    (entry : SwapAndBridgeProgress) (e : Err)
    (hsim : env.simulateResult = Except.error e) :
    phase2 p env cb entry =
      ⟨[], [ExtCall.simulateContract p.spokePoolPeripheryAddress
          p.userAddress p.swapAndDepositData
          (if p.isNative then some p.swapAndDepositData.swapTokenAmount
           else none)],
        Except.error (e, stepOf entry,
          ProgressMeta.swapAndBridge ⟨p.swapAndDepositData⟩)⟩ := by
  simp [phase2, hsim]

/-- When simulation raises, no swapAndBridge calldata is ever sent. -/
lemma phase1_calls_no_sab_of_sim_error (p : Params) (env : Env)
    (cb : SwapAndBridgeProgress → Option Err) (e : Err)
    (hsim : env.simulateResult = Except.error e) :
    (phase1 p env cb).calls.all (fun c =>
      match c with
      | ExtCall.sendTransaction _ (Calldata.swapAndBridge _) _ => false
      | _ => true) = true := by
  simp only [phase1]
  repeat' split
  all_goals
    first
    | (rw [phase2_sim_error p env cb _ e hsim]; simp)
    | simp

/-- When simulation raises, the try block fails with an approve step. -/
lemma phase1_result_step_of_sim_error (p : Params) (env : Env)
    (cb : SwapAndBridgeProgress → Option Err) (e : Err)
    (hsim : env.simulateResult = Except.error e) :
    ∃ e2 m, (phase1 p env cb).result = Except.error (e2, Step.approve, m) := by
  simp only [phase1]
  repeat' split
  all_goals
    first
    | exact ⟨_, _, rfl⟩
    | (rw [phase2_sim_error p env cb _ e hsim]; exact ⟨_, _, rfl⟩)

/-- No event the try block itself delivers has status error (the error event
is only built by the catch block). -/
lemma phase1_events_no_error (p : Params) (env : Env)
    (cb : SwapAndBridgeProgress → Option Err) :
    (phase1 p env cb).events.all
      (fun ev => statusOf ev != Status.error) = true := by
  simp only [phase1, phase2]
  repeat' split
  all_goals simp [statusOf]

/-- C2 (amended): when the pre-send simulation of the swapAndBridge call
raises, no swapAndBridge transaction is ever broadcast, an error progress
event is delivered, and every delivered error event has step approve (not
swapAndBridge: the orchestrator's progress variable has not advanced past the
approve step when the simulation fails). -/
theorem simulation_failure_no_broadcast (p : Params) (env : Env) (e : Err)
    (hsim : env.simulateResult = Except.error e) :
    ((executeSwapAndBridge p env).calls.all (fun c =>
        match c with
        | ExtCall.sendTransaction _ (Calldata.swapAndBridge _) _ => false
        | _ => true) = true)
    ∧ ((executeSwapAndBridge p env).events.all (fun ev =>
        !(statusOf ev == Status.error) || (stepOf ev == Step.approve))
          = true)
    ∧ ((executeSwapAndBridge p env).events.any
        (fun ev => statusOf ev == Status.error) = true) := by
  obtain ⟨e2, m, hres⟩ :=
    phase1_result_step_of_sim_error p env (cbOf p) e hsim
  have hnoerr := phase1_events_no_error p env (cbOf p)
  rw [List.all_eq_true] at hnoerr
  refine ⟨?_, ?_, ?_⟩
  · rw [exec_calls]
    exact phase1_calls_no_sab_of_sim_error p env (cbOf p) e hsim
  · rcases exec_events p env with ⟨resp, hres0, heq⟩ | ⟨e3, st3, m3, hres3, heq⟩
    · rw [hres] at hres0
      exact absurd hres0 (by simp)
    · rw [hres] at hres3
      rw [Except.error.injEq] at hres3
      simp only [Prod.mk.injEq] at hres3
      obtain ⟨he3, hst3, hm3⟩ := hres3
      rw [heq, List.all_eq_true]
      intro ev hevm
      rcases List.mem_append.mp hevm with hl | hr
      · have h4 := hnoerr ev hl
        simp only [bne_iff_ne, ne_eq] at h4
        simp [h4]
      · have hev2 : ev = SwapAndBridgeProgress.error st3 e3 m3 := by
          simpa using hr
        subst hev2
        subst hst3
        simp [statusOf, stepOf]
  · rcases exec_events p env with ⟨resp, hres0, heq⟩ | ⟨e3, st3, m3, hres3, heq⟩
    · rw [hres] at hres0
      exact absurd hres0 (by simp)
    · rw [heq]
      simp [statusOf]

/-- An oracle on which simulation raises. -/
def envSimFail : Env := { envOk with simulateResult := Except.error 7 }

/-- Counterexample to C2 as stated: on a run where the simulation of the
swapAndBridge call raises, the single delivered error event has step approve,
not swapAndBridge. -/
theorem simulation_failure_error_step_counterexample :
    envSimFail.simulateResult = Except.error 7
    ∧ (executeSwapAndBridge { paramsC with skipAllowanceCheck := true }
        envSimFail).events
      = [SwapAndBridgeProgress.error Step.approve 7
          (ProgressMeta.swapAndBridge ⟨dataC⟩)]
    ∧ stepOf (SwapAndBridgeProgress.error Step.approve 7
        (ProgressMeta.swapAndBridge ⟨dataC⟩)) ≠ Step.swapAndBridge := by
  decide

/-- Witness for the amended C2 at the concrete simulation-failure run. -/
theorem simulation_failure_no_broadcast_witness :
    ((executeSwapAndBridge { paramsC with skipAllowanceCheck := true }
        envSimFail).calls.all (fun c =>
        match c with
        | ExtCall.sendTransaction _ (Calldata.swapAndBridge _) _ => false
        | _ => true) = true)
    ∧ ((executeSwapAndBridge { paramsC with skipAllowanceCheck := true }
        envSimFail).events.all (fun ev =>
        !(statusOf ev == Status.error) || (stepOf ev == Step.approve))
          = true)
    ∧ ((executeSwapAndBridge { paramsC with skipAllowanceCheck := true }
        envSimFail).events.any
        (fun ev => statusOf ev == Status.error) = true) :=
  simulation_failure_no_broadcast _ envSimFail 7 rfl

/-- The approval amount the orchestrator computes: maxUint256 under
infiniteApproval, otherwise exactly swapTokenAmount. -/
def expectedApproval (p : Params) : Nat :=
  if p.infiniteApproval then maxUint256 else p.swapAndDepositData.swapTokenAmount

/-- The ApproveMeta carried by an event, when it carries one. -/
def approveMetaOf : SwapAndBridgeProgress → Option ApproveMeta
  | .approveTxPending _ m => some m
  | .approveTxSuccess _ m => some m
  | .error _ _ (ProgressMeta.approve m) => some m
  | _ => none

/-- Every approve calldata the try block sends, every ApproveMeta its events
carry, and every approve meta a failing result records name the periphery
contract as spender and the expected approval amount. -/
lemma phase1_approve_payloads (p : Params) (env : Env)
    (cb : SwapAndBridgeProgress → Option Err) :
    ((phase1 p env cb).calls.all (fun c =>
      match c with
      | ExtCall.sendTransaction _ (Calldata.approve sp amt) _ =>
          sp == p.spokePoolPeripheryAddress && amt == expectedApproval p
      | _ => true) = true)
    ∧ ((phase1 p env cb).events.all (fun ev =>
      match approveMetaOf ev with
      | some m2 => m2.spender == p.spokePoolPeripheryAddress
          && m2.approvalAmount == expectedApproval p
      | none => true) = true)
    ∧ (∀ e st m2, (phase1 p env cb).result = Except.error (e, st, m2) →
      (match m2 with
       | ProgressMeta.approve am =>
           am.spender == p.spokePoolPeripheryAddress
             && am.approvalAmount == expectedApproval p
       | _ => true) = true) := by
  simp only [phase1, phase2]
  repeat' split
  all_goals refine ⟨?_, ?_, ?_⟩
  all_goals try intro e st m2 hres2
  all_goals simp_all [expectedApproval, approveMetaOf]
  all_goals obtain ⟨hr1, hr2, hr3⟩ := hres2
  all_goals subst hr3
  all_goals simp_all

/-- C6: whenever an approval transaction is submitted, the approved amount
encoded in the calldata and carried in the approve events meta is maxUint256
under infiniteApproval and exactly swapTokenAmount otherwise, and the
spender is always the periphery contract address. -/
theorem approval_amount_and_spender (p : Params) (env : Env) :
    ((executeSwapAndBridge p env).calls.all (fun c =>
      match c with
      | ExtCall.sendTransaction _ (Calldata.approve sp amt) _ =>
          sp == p.spokePoolPeripheryAddress && amt == expectedApproval p
      | _ => true) = true)
    ∧ ((executeSwapAndBridge p env).events.all (fun ev =>
      match approveMetaOf ev with
      | some m2 => m2.spender == p.spokePoolPeripheryAddress
          && m2.approvalAmount == expectedApproval p
      | none => true) = true) := by
  obtain ⟨hcalls, hevents, hresult⟩ := phase1_approve_payloads p env (cbOf p)
  refine ⟨?_, ?_⟩
  · rw [exec_calls]
    exact hcalls
  · rcases exec_events p env with ⟨resp, hres0, heq⟩ | ⟨e, st, m, hres, heq⟩
    · rw [heq]
      exact hevents
    · rw [heq, List.all_eq_true]
      intro ev hevm
      rcases List.mem_append.mp hevm with hl | hr
      · exact List.all_eq_true.mp hevents ev hl
      · have hev2 : ev = SwapAndBridgeProgress.error st e m := by
          simpa using hr
        subst hev2
        have h5 := hresult e st m hres
        revert h5
        cases m <;> simp [approveMetaOf]

/-- A successful try block result is exactly the deposit id and the two
receipts the oracle produced, with no error field. -/
lemma phase1_result_ok_characterize (p : Params) (env : Env)
    (cb : SwapAndBridgeProgress → Option Err) (r : Response)
    (h : (phase1 p env cb).result = Except.ok r) :
    ∃ i dr fr ts ac, env.depositTxResult = Except.ok (i, dr)
      ∧ env.fillTxResult = Except.ok (fr, ts, ac)
      ∧ r = ⟨some i, some dr, some fr, none⟩ := by
  simp only [phase1, phase2] at h
  repeat' split at h
  all_goals
    first
    | (exfalso
       revert h
       simp
       done)
    | (simp at h
       subst h
       exact ⟨_, _, _, _, _, by assumption, by assumption, rfl⟩)

/-- C7: a run that completes all three phases without an exception returns
exactly the deposit id, the deposit transaction receipt, and the fill
transaction receipt, with the error field absent. -/
theorem success_result_fields (p : Params) (env : Env) (resp : Response)
    (hout : (executeSwapAndBridge p env).outcome = Outcome.returned resp)
    (hnoerr : resp.error = none) :
    ∃ i dr fr ts ac, env.depositTxResult = Except.ok (i, dr)
      ∧ env.fillTxResult = Except.ok (fr, ts, ac)
      ∧ resp = ⟨some i, some dr, some fr, none⟩ := by
  revert hout
  simp only [executeSwapAndBridge]
  cases hres : (phase1 p env (cbOf p)).result with
  | ok r =>
    intro hout
    simp only [Outcome.returned.injEq] at hout
    subst hout
    exact phase1_result_ok_characterize p env (cbOf p) _ hres
  | error est =>
    obtain ⟨e, st, m⟩ := est
    cases hcb : cbOf p (SwapAndBridgeProgress.error st e m) with
    | some e2 =>
      intro hout
      simp only [hcb] at hout
      simp at hout
    | none =>
      cases hth : p.throwOnError with
      | true =>
        intro hout
        simp only [hcb] at hout
        simp [hth] at hout
      | false =>
        intro hout
        simp only [hcb] at hout
        simp [hth] at hout
        subst hout
        simp at hnoerr

/-- Witness for C7 at the all-success concrete run. -/
theorem success_result_fields_witness :
    ∃ i dr fr ts ac, envOk.depositTxResult = Except.ok (i, dr)
      ∧ envOk.fillTxResult = Except.ok (fr, ts, ac)
      ∧ (⟨some 42, some receiptC, some fillReceiptC, none⟩ : Response)
          = ⟨some i, some dr, some fr, none⟩ :=
  success_result_fields paramsC envOk
    ⟨some 42, some receiptC, some fillReceiptC, none⟩ (by decide) rfl

/-- C3 (amended): when the try block raises and the progress callback does
not itself throw on the error event, the run returns a response holding only
the captured error when throwOnError is false and re-raises the same error
when throwOnError is true. -/
theorem error_capture_respects_throwOnError (p : Params) (env : Env)
    (e : Err) (st : Step) (m : ProgressMeta)
    (hres : (phase1 p env (cbOf p)).result = Except.error (e, st, m))
    (hcb : cbOf p (SwapAndBridgeProgress.error st e m) = none) :
    (executeSwapAndBridge p env).outcome =
      (if p.throwOnError then Outcome.thrown e
       else Outcome.returned ⟨none, none, none, some e⟩) := by
  simp only [executeSwapAndBridge, hres, hcb]
  by_cases hth : p.throwOnError = true <;> simp [hth]

/-- Parameters whose progress callback always throws, with throwOnError
disabled. -/
def paramsAlwaysThrow : Params := { paramsC with
  throwOnError := false
  onProgress := some (fun _ => some 99) }

/-- An oracle on which the allowance read raises. -/
def envAllowFail : Env := { envOk with allowance := Except.error 5 }

/-- Counterexample to C3 as stated: an exception (error 5) is raised in the
approval phase and throwOnError is false, yet the run does not return the
captured error: the callback throws on the error event and that throw (99)
propagates. -/
theorem throwOnError_false_callback_throw_counterexample :
    paramsAlwaysThrow.throwOnError = false
    ∧ envAllowFail.allowance = Except.error 5
    ∧ (executeSwapAndBridge paramsAlwaysThrow envAllowFail).outcome
        = Outcome.thrown 99 := by decide

/-- Parameters with throwOnError disabled and the default callback. -/
def paramsNoThrow : Params := { paramsC with throwOnError := false }

/-- Witness for the amended C3 at a run whose allowance read raises. -/
theorem error_capture_respects_throwOnError_witness :
    (executeSwapAndBridge paramsNoThrow envAllowFail).outcome =
      (if paramsNoThrow.throwOnError then Outcome.thrown 5
       else Outcome.returned ⟨none, none, none, some 5⟩) :=
  error_capture_respects_throwOnError paramsNoThrow envAllowFail 5
    Step.approve ProgressMeta.undef (by decide) rfl

/-- C9 (amended): a throw raised by the progress callback while it handles
the terminal error event is not caught: it propagates to the caller
regardless of throwOnError, after the error event has been delivered. -/
theorem callback_throw_on_error_event_propagates (p : Params) (env : Env)
    (e e2 : Err) (st : Step) (m : ProgressMeta)
    (hres : (phase1 p env (cbOf p)).result = Except.error (e, st, m))
    (hcb : cbOf p (SwapAndBridgeProgress.error st e m) = some e2) :
    (executeSwapAndBridge p env).outcome = Outcome.thrown e2
    ∧ (executeSwapAndBridge p env).events
        = (phase1 p env (cbOf p)).events
          ++ [SwapAndBridgeProgress.error st e m] := by
  constructor <;> simp [executeSwapAndBridge, hres, hcb]

/-- Witness for the amended C9: with an always-throwing callback and a
failing allowance read, the callback throw on the error event propagates
even though throwOnError is false. -/
theorem callback_throw_on_error_event_propagates_witness :
    (executeSwapAndBridge paramsAlwaysThrow envAllowFail).outcome
        = Outcome.thrown 99
    ∧ (executeSwapAndBridge paramsAlwaysThrow envAllowFail).events
        = (phase1 paramsAlwaysThrow envAllowFail (cbOf paramsAlwaysThrow)).events
          ++ [SwapAndBridgeProgress.error Step.approve 5 ProgressMeta.undef] :=
  callback_throw_on_error_event_propagates paramsAlwaysThrow envAllowFail 5 99
    Step.approve ProgressMeta.undef (by decide) rfl

/-- Parameters whose callback throws exactly on the approve txPending
event, with throwOnError disabled. -/
def paramsPendingThrow : Params := { paramsC with
  throwOnError := false
  onProgress := some (fun ev =>
    if statusOf ev == Status.txPending && stepOf ev == Step.approve
    then some 42 else none) }

/-- Counterexample to C9 as stated: the callback throws (error 42) when
invoked with the delivered approve txPending event, yet no throw propagates
to the caller: the orchestrator catches it and the run returns normally with
the captured error. -/
theorem callback_throw_counterexample :
    cbOf paramsPendingThrow (SwapAndBridgeProgress.approveTxPending 111
      ⟨5000000, 901⟩) = some 42
    ∧ SwapAndBridgeProgress.approveTxPending 111 ⟨5000000, 901⟩
        ∈ (executeSwapAndBridge paramsPendingThrow envOk).events
    ∧ (executeSwapAndBridge paramsPendingThrow envOk).outcome
        = Outcome.returned ⟨none, none, none, some 42⟩ := by decide

/-- Result of generateSwapCallData (src/utils/transactions.ts): the call
data and the router address the aggregator route build returned (the local
variable named to in the source holds the routerAddress response field). -/
structure SwapRoute where
  calldata : Nat
  routerAddress : Nat
deriving DecidableEq

/-- Errors the swap action update hook can raise. -/
inductive UpdateError where
  | generate (e : Err)
  | addressChanged
deriving DecidableEq

/-- The object the update hook returns: the re-derived call data. -/
structure UpdateReturn where
  callData : Nat
deriving DecidableEq

/-- The cross-chain message swap action update hook of executeSwap and
executeSwapBridgeSwap: re-derive the swap call data from the updated output
amount via generateSwapCallData (an external aggregator call, modelled as an
oracle function that can raise) and raise when the resolved router address
differs from the one the original call data was built against. -/
def swapActionUpdate (generateRoute : Nat → Except Err SwapRoute)
    (originalTo : Nat) (updatedOutputAmount : Nat) :
    Except UpdateError UpdateReturn :=
  match generateRoute updatedOutputAmount with
  | .error e => .error (.generate e)
  | .ok r =>
    if originalTo ≠ r.routerAddress then .error .addressChanged
    else .ok ⟨r.calldata⟩

/-- C8: when the router address returned by the updated quote differs from
the address the original call data was built against, the update hook raises
rather than substituting the new address or returning updated call data. -/
theorem update_hook_address_change_fails
    (generateRoute : Nat → Except Err SwapRoute)
    (originalTo amt : Nat) (r : SwapRoute)
    (hgen : generateRoute amt = Except.ok r)
    (hne : originalTo ≠ r.routerAddress) :
    swapActionUpdate generateRoute originalTo amt
      = Except.error UpdateError.addressChanged := by
  simp [swapActionUpdate, hgen, hne]

/-- Witness for C8 at a concrete updated quote whose router address (6)
differs from the original (7). -/
theorem update_hook_address_change_fails_witness :
    swapActionUpdate (fun _ => Except.ok ⟨5, 6⟩) 7 3
      = Except.error UpdateError.addressChanged :=
  update_hook_address_change_fails (fun _ => Except.ok ⟨5, 6⟩) 7 3 ⟨5, 6⟩
    rfl (by decide)

end AcrossKyberswap
